import Mathlib

/-!
Verification development for the pocket-inventory offline-first sync core.

The repository implements the reconciliation engine as React hooks over
Firestore.  Two variants of the inventory hook exist in the sources:

* the *base* variant, `src/src/hooks/use-inventory.ts` (first document of the
  file) — no single-flight guard, the snapshot handler never touches the
  offline queue, and a failed company lookup aborts the item for that pass;
* the *guarded* variant, `src/unnamed/part_007` (second document, lines
  393–904) — an `isSyncing` ref guards the sync pass, the snapshot handler
  purges queue entries whose `tempId` equals the incoming document id, and a
  failed company lookup is caught so the record proceeds without a company.

Definitions below embed both variants; timestamps are modelled as `Int`
epoch milliseconds (JavaScript `Date.getTime()`), Firestore documents as
records, and the remote store as explicit lists/state.
-/

namespace PocketInventory

/-- A confirmed product record as used by the hooks (`src/src/lib/types.ts`,
`Product`): server id, mandatory name, optional company, prices, discount
(defaulted to 0 by the mutation), optional image URL, creation timestamp in
epoch milliseconds, and the `isOffline` UI flag. -/
structure Product where
  id : String
  name : String
  company : Option String
  costPrice : Int
  sellingPrice : Int
  maxDiscount : Int
  imageUrl : Option String
  createdAt : Int
  isOffline : Bool
deriving DecidableEq, Repr

/-- A queue entry (`OfflineProduct` in both hook variants): locally generated
`tempId`, the product fields, the local image path placeholders, and the
client-assigned creation timestamp. -/
structure OfflineProduct where
  tempId : String
  name : String
  company : Option String
  costPrice : Int
  sellingPrice : Int
  maxDiscount : Int
  imageFilePath : Option String
  imageFileName : Option String
  createdAt : Int
deriving DecidableEq, Repr

/-- A company document (`src/src/lib/types.ts`, `Company`), with the
lowercased key stored for case-insensitive querying. -/
structure Company where
  id : String
  name : String
  nameLower : String
  createdAt : Int
deriving DecidableEq, Repr

/-- Firestore change-stream event kinds (`change.type` in `onSnapshot`). -/
inductive ChangeType
  | added
  | modified
  | removed
deriving DecidableEq, Repr

/-- One `docChange` from a products snapshot: the event kind together with
the document data (`changeData` in the handlers; for snapshot data the
`isOffline` flag is false). -/
structure DocChange where
  ctype : ChangeType
  doc : Product
deriving DecidableEq, Repr

/-- The shared state the snapshot handlers operate on: the products query
cache and the offline queue. -/
structure ProductsQueue where
  products : List Product
  offlineQueue : List OfflineProduct
deriving DecidableEq, Repr

/-- JavaScript `String.prototype.includes`: `jsIncludes s sub` holds when
`sub` occurs contiguously inside `s`. -/
def jsIncludes (s sub : String) : Bool :=
  decide (sub.toList <:+: s.toList)

/-- JavaScript `String.prototype.toLowerCase`, modelled characterwise. -/
def jsToLower (s : String) : String :=
  String.mk (s.toList.map Char.toLower)

/-- JavaScript `String.prototype.trim`: strip leading and trailing
whitespace. -/
def jsTrim (s : String) : String :=
  String.mk (((s.toList.dropWhile Char.isWhitespace).reverse.dropWhile
    Char.isWhitespace).reverse)

/-- The search filter applied to the merged list (`use-inventory.ts`
lines 515–518): case-insensitive substring match on name or company. -/
def matchesSearch (term : String) (p : Product) : Bool :=
  jsIncludes (jsToLower p.name) (jsToLower term) ||
    jsIncludes (jsToLower (p.company.getD "")) (jsToLower term)

/-- Mapping of a queue entry to its display form in `combinedList`
(`use-inventory.ts` lines 499–510): id is the `tempId`, the image URL is the
stored path when it is a `blob:` URL, and `isOffline` is set. -/
def offlineToDisplay (op : OfflineProduct) : Product :=
  { id := op.tempId
    name := op.name
    company := op.company
    costPrice := op.costPrice
    sellingPrice := op.sellingPrice
    maxDiscount := op.maxDiscount
    imageUrl :=
      match op.imageFilePath with
      | some path => if "blob:".isPrefixOf path then some path else none
      | none => none
    createdAt := op.createdAt
    isOffline := true }

/-- Insertion step of the descending sort used throughout the hooks
(`.sort((a, b) => b.createdAt.getTime() - a.createdAt.getTime())`). -/
def insertByCreatedDesc (p : Product) : List Product → List Product
  | [] => [p]
  | q :: qs =>
      if q.createdAt ≤ p.createdAt then p :: q :: qs
      else q :: insertByCreatedDesc p qs

/-- Sorting by creation timestamp descending, the comparator used for the
merged list, the optimistic insert, and the snapshot handlers. -/
def sortDesc : List Product → List Product
  | [] => []
  | p :: ps => insertByCreatedDesc p (sortDesc ps)

/-- The merged list returned to the presentation layer by the base variant
(`src/src/hooks/use-inventory.ts` lines 497–518): queue entries mapped to
display form, followed by confirmed products whose id does not equal any
queued `tempId`, sorted descending by creation time, then filtered by the
search term. -/
def combinedList (offlineQueue : List OfflineProduct) (products : List Product)
    (searchTerm : String) : List Product :=
  (sortDesc
    (offlineQueue.map offlineToDisplay ++
      products.filter (fun p => !(offlineQueue.any (fun op => op.tempId == p.id))))).filter
    (matchesSearch searchTerm)

/-- One `docChange` applied by the base variant's snapshot handler
(`src/src/hooks/use-inventory.ts` lines 120–147): `added` pushes the document
unless an entry with that id exists (then it replaces it), `modified`
replaces by id, `removed` filters by id.  The handler never touches the
offline queue. -/
def mainApplyChange (ps : List Product) (c : DocChange) : List Product :=
  match c.ctype with
  | ChangeType.added =>
      if ps.any (fun p => p.id == c.doc.id) then
        ps.map (fun p => if p.id == c.doc.id then c.doc else p)
      else ps ++ [c.doc]
  | ChangeType.modified =>
      ps.map (fun p => if p.id == c.doc.id then c.doc else p)
  | ChangeType.removed =>
      ps.filter (fun p => p.id != c.doc.id)

/-- A whole snapshot batch in the base variant: fold the changes over the
products cache and sort descending (line 149).  The offline queue is not an
input of the handler; it is returned unchanged. -/
def mainSnapshotStep (s : ProductsQueue) (changes : List DocChange) : ProductsQueue :=
  { products := sortDesc (changes.foldl mainApplyChange s.products)
    offlineQueue := s.offlineQueue }

/-- Map-style upsert used by the guarded variant's snapshot handler
(`updatedProductsMap.set`): replace in place when the id is present,
otherwise append. -/
def upsertById (ps : List Product) (d : Product) : List Product :=
  if ps.any (fun p => p.id == d.id) then
    ps.map (fun p => if p.id == d.id then d else p)
  else ps ++ [d]

/-- One `docChange` applied by the guarded variant's snapshot handler
(`src/unnamed/part_007` lines 516–536): `added`/`modified` upsert the
document (with `isOffline := false`) and filter the offline queue by
`op.tempId !== changeData.id`; `removed` deletes from the map and filters
the queue by the same condition. -/
def guardedApplyChange (s : ProductsQueue) (c : DocChange) : ProductsQueue :=
  match c.ctype with
  | ChangeType.added | ChangeType.modified =>
      { products := upsertById s.products { c.doc with isOffline := false }
        offlineQueue := s.offlineQueue.filter (fun op => op.tempId != c.doc.id) }
  | ChangeType.removed =>
      { products := s.products.filter (fun p => p.id != c.doc.id)
        offlineQueue := s.offlineQueue.filter (fun op => op.tempId != c.doc.id) }

/-- A whole snapshot batch in the guarded variant: fold the changes, then
sort the map values descending (lines 539–540). -/
def guardedSnapshot (s : ProductsQueue) (changes : List DocChange) : ProductsQueue :=
  let s' := changes.foldl guardedApplyChange s
  { s' with products := sortDesc s'.products }

/-- The state read by a `syncOfflineQueue` call: the queue and connectivity,
plus the `isSyncing` ref and the `isAddingCompany` flag that only the guarded
variant consults. -/
structure SyncCallEnv where
  offlineQueue : List OfflineProduct
  online : Bool
  isSyncingRef : Bool
  isAddingCompany : Bool
deriving DecidableEq, Repr

/-- Guard of the base variant's `syncOfflineQueue`
(`src/src/hooks/use-inventory.ts` lines 175–178): proceed unless the queue
is empty or the device is offline.  There is no in-flight flag. -/
def mainSyncProceeds (s : SyncCallEnv) : Bool :=
  !(s.offlineQueue.isEmpty || !s.online)

/-- Guard of the guarded variant's `syncOfflineQueue` (`src/unnamed/part_007`
lines 563–570): return when `isSyncing.current` is set, when a company
mutation is pending, when the queue is empty, or when offline. -/
def guardedSyncProceeds (s : SyncCallEnv) : Bool :=
  !s.isSyncingRef && !(s.isAddingCompany || s.offlineQueue.isEmpty || !s.online)

/-- Network passes performed by two immediate calls of the base variant's
`syncOfflineQueue`.  The base variant mutates no synchronously shared state
before its first awaited operation (`setOfflineQueue` runs only after
`batch.commit()` resolves, and the `offlineQueue` binding is a render-scoped
constant), so the second call evaluates the same guard against the same
state. -/
def mainTwoCallsNetworkPasses (s : SyncCallEnv) : Nat :=
  (if mainSyncProceeds s then 1 else 0) + (if mainSyncProceeds s then 1 else 0)

/-- Network passes performed by two immediate calls of the guarded variant's
`syncOfflineQueue`.  `isSyncing.current = true` (line 572) is executed
synchronously before the first `await`, and the ref is shared between the
calls, so the second call's guard sees it set. -/
def guardedTwoCallsNetworkPasses (s : SyncCallEnv) : Nat :=
  let first := guardedSyncProceeds s
  let after := if first then { s with isSyncingRef := true } else s
  (if first then 1 else 0) + (if guardedSyncProceeds after then 1 else 0)

/-- Queue left by a base-variant sync pass
(`src/src/hooks/use-inventory.ts` lines 181–293), parametrised by which
entries prepare successfully (`prepOk`, the per-item try block reaching
`batch.set`) and whether `batch.commit()` succeeds.  Entries that prepared
are recorded in `successfullySyncedTempIds`; on commit success those ids are
filtered out of the queue; on commit failure, or when nothing was batched,
the queue is untouched. -/
def mainSyncPassQueue (prepOk : OfflineProduct → Bool) (commitOk : Bool)
    (q : List OfflineProduct) : List OfflineProduct :=
  let syncedIds := (q.filter (fun p => prepOk p)).map (fun p => p.tempId)
  if syncedIds.isEmpty then q
  else if commitOk then q.filter (fun p => !syncedIds.contains p.tempId)
  else q

/-- Queue left by a guarded-variant sync pass (`src/unnamed/part_007` lines
572–702): the queue is optimistically cleared at the start, each entry whose
preparation throws is appended back inside the per-item catch (line 663), and
on commit failure the entries whose `tempId` is in
`successfullySyncedTempIds` are re-appended as a block (lines 688–689). -/
def guardedSyncPassQueue (prepOk : OfflineProduct → Bool) (commitOk : Bool)
    (q : List OfflineProduct) : List OfflineProduct :=
  let failed := q.filter (fun p => !prepOk p)
  let syncedIds := (q.filter (fun p => prepOk p)).map (fun p => p.tempId)
  if syncedIds.isEmpty then failed
  else if commitOk then failed
  else failed ++ q.filter (fun p => syncedIds.contains p.tempId)

/-- Outcome of preparing one queue entry for the write batch during a sync
pass: either added to the batch carrying the given company association, or
failed for this pass (kept in the queue, not batched). -/
inductive PrepOutcome
  | batched (company : Option String)
  | failed
deriving DecidableEq, Repr

/-- Per-item company control flow of the base variant's sync pass
(`src/src/hooks/use-inventory.ts` lines 185–254): `await addCompany(...)` is
not wrapped in its own try/catch, so when the lookup throws for an entry
with a company the per-item catch fires and the entry is not batched.
Image-upload errors are caught further in and never escape, so they do not
affect this control flow. -/
def mainPrepareItem (companyOk : Bool) (p : OfflineProduct) : PrepOutcome :=
  match p.company with
  | some name => if companyOk then PrepOutcome.batched (some name) else PrepOutcome.failed
  | none => PrepOutcome.batched none

/-- Per-item company control flow of the guarded variant's sync pass
(`src/unnamed/part_007` lines 584–605): the `addCompany` call has an inner
try/catch that surfaces a toast and clears `verifiedCompanyName`, so the
entry always reaches `batch.set`, with `company: null` on failure. -/
def guardedPrepareItem (companyOk : Bool) (p : OfflineProduct) : PrepOutcome :=
  match p.company with
  | some name => PrepOutcome.batched (if companyOk then some name else none)
  | none => PrepOutcome.batched none

/-- Abstract events of an `addProduct` mutation run, used to state ordering
properties of the enqueue path. -/
inductive Ev
  | netCompanyCheck
  | netUpload
  | netCreateDoc
  | queueInsert
  | viewInsertHead
  | queueRemove
  | viewReplaceId
deriving DecidableEq, Repr

/-- Which events are network I/O. -/
def Ev.isNet : Ev → Bool
  | Ev.netCompanyCheck => true
  | Ev.netUpload => true
  | Ev.netCreateDoc => true
  | _ => false

/-- Event trace of the base variant's `addProductMutation.mutationFn`
(`src/src/hooks/use-inventory.ts` lines 331–460), success path: when a
company is present, `await addCompany(...)` runs first (its errors are
caught); then the entry is appended to the offline queue and optimistically
inserted at the head of the products cache; then, if online, the image is
uploaded (when present) and `addDoc` is called, and on success the entry is
removed from the queue.  Failure paths only truncate the network suffix. -/
def mainEnqueueTrace (hasCompany hasImage online directOk : Bool) : List Ev :=
  (if hasCompany then [Ev.netCompanyCheck] else []) ++
    [Ev.queueInsert, Ev.viewInsertHead] ++
    (if online then
       (if hasImage then [Ev.netUpload] else []) ++ [Ev.netCreateDoc] ++
         (if directOk then [Ev.queueRemove] else [])
     else [])

/-- Event trace of the guarded variant's `addProductMutation.mutationFn`
(`src/unnamed/part_007` lines 740–857), success path: the optimistic head
insert into the products cache comes first; when online the upload and
`addDoc` follow, and the entry is appended to the offline queue only when
the direct add fails (line 837) or the device is offline (line 849); on
direct success the optimistic entry is re-keyed to the server id. -/
def guardedEnqueueTrace (hasImage online directOk : Bool) : List Ev :=
  [Ev.viewInsertHead] ++
    (if online then
       (if hasImage then [Ev.netUpload] else []) ++ [Ev.netCreateDoc] ++
         (if directOk then [Ev.viewReplaceId] else [Ev.queueInsert])
     else [Ev.queueInsert])

/-- Whether any network event occurs strictly before the first occurrence of
`target` in the trace. -/
def netBefore (tr : List Ev) (target : Ev) : Bool :=
  (tr.takeWhile (fun e => e != target)).any Ev.isNet

/-- Whether a record-level network event (upload or document create) occurs
strictly before the first occurrence of `target` in the trace. -/
def recordNetBefore (tr : List Ev) (target : Ev) : Bool :=
  (tr.takeWhile (fun e => e != target)).any
    (fun e => e == Ev.netUpload || e == Ev.netCreateDoc)

/-- Result of one `addCompany` mutation call: the returned company (or
null), the remote companies collection afterwards, and how many remote
queries and writes were performed. -/
structure AddCompanyOutcome where
  result : Option Company
  store : List Company
  remoteReads : Nat
  remoteWrites : Nat
deriving DecidableEq, Repr

/-- The `addCompanyMutation.mutationFn` of `src/src/hooks/use-companies.ts`
(lines 53–97): an empty or whitespace-only name returns null with no remote
operation; otherwise the name is trimmed, the collection is queried for
`nameLower == trimmedName.toLowerCase()` (first match), an existing company
is returned as is, and otherwise a new document is created with the trimmed
name and the lowercased key.  `newId` is the id Firestore assigns to a new
document and `now` the client timestamp. -/
def addCompanyFn (store : List Company) (newId : String) (now : Int)
    (companyName : String) : AddCompanyOutcome :=
  let trimmedName := jsTrim companyName
  if trimmedName = "" then ⟨none, store, 0, 0⟩
  else
    let lowerCaseName := jsToLower trimmedName
    match store.find? (fun c => c.nameLower == lowerCaseName) with
    | some existing => ⟨some existing, store, 1, 0⟩
    | none =>
        let newCompany : Company := ⟨newId, trimmedName, lowerCaseName, now⟩
        ⟨some newCompany, store ++ [newCompany], 1, 1⟩

/-- Raw form input before validation, mirroring the fields of
`productSchema` in `src/src/components/add-product-form.tsx` (the optional
image file is irrelevant to validation and omitted). -/
structure RawProductForm where
  name : String
  company : Option String
  costPrice : Int
  sellingPrice : Int
  maxDiscount : Option Int
deriving DecidableEq, Repr

/-- Validated form data (`AddProductFormData` of `src/src/lib/types.ts`):
after parsing, `maxDiscount` is defaulted to 0. -/
structure AddProductFormData where
  name : String
  company : Option String
  costPrice : Int
  sellingPrice : Int
  maxDiscount : Int
deriving DecidableEq, Repr

/-- The zod `productSchema` (`src/src/components/add-product-form.tsx` lines
52–59): name non-empty, cost and selling price non-negative, max discount in
[0, 100] and defaulted to 0 when absent.  Parsing fails (`none`) exactly
when a constraint is violated. -/
def productSchemaParse (f : RawProductForm) : Option AddProductFormData :=
  if f.name.length < 1 then none
  else if f.costPrice < 0 then none
  else if f.sellingPrice < 0 then none
  else
    match f.maxDiscount with
    | none => some ⟨f.name, f.company, f.costPrice, f.sellingPrice, 0⟩
    | some d =>
        if d < 0 then none
        else if 100 < d then none
        else some ⟨f.name, f.company, f.costPrice, f.sellingPrice, d⟩

/-- The local observable state of the inventory hook: the in-memory queue,
the products cache (the merge input), and the queue image persisted to local
storage (the persistence effect writes the whole queue on every change). -/
structure InventoryState where
  offlineQueue : List OfflineProduct
  productsCache : List Product
  persisted : List OfflineProduct
deriving DecidableEq, Repr

/-- The local phase of the base variant's `addProductMutation.mutationFn`
for an imageless input (lines 370–395): build the `OfflineProduct` with the
given temp id and client timestamp, append it to the queue (persisted by the
storage effect), and insert the optimistic entry into the products cache,
kept sorted descending. -/
def enqueueLocal (d : AddProductFormData) (tempId : String) (now : Int)
    (s : InventoryState) : InventoryState :=
  let op : OfflineProduct :=
    { tempId := tempId
      name := d.name
      company := d.company
      costPrice := d.costPrice
      sellingPrice := d.sellingPrice
      maxDiscount := d.maxDiscount
      imageFilePath := none
      imageFileName := none
      createdAt := now }
  let q' := s.offlineQueue ++ [op]
  { offlineQueue := q'
    productsCache :=
      sortDesc
        ({ id := tempId
           name := d.name
           company := d.company
           costPrice := d.costPrice
           sellingPrice := d.sellingPrice
           maxDiscount := d.maxDiscount
           imageUrl := none
           createdAt := now
           isOffline := true } :: s.productsCache)
    persisted := q' }

/-- The validated submit path: the form resolver (`zodResolver
productSchema`) only invokes `onAddProduct` when parsing succeeds, so an
invalid input leaves the hook state untouched. -/
def submitAddProduct (f : RawProductForm) (tempId : String) (now : Int)
    (s : InventoryState) : InventoryState :=
  match productSchemaParse f with
  | none => s
  | some d => enqueueLocal d tempId now s

/-- The merged list is sorted by creation timestamp in non-increasing
(descending, ties allowed) order. -/
def sortedByCreatedDesc (l : List Product) : Prop :=
  l.Pairwise (fun a b => b.createdAt ≤ a.createdAt)

/-- Strictly descending order by creation timestamp. -/
def strictlySortedByCreatedDesc (l : List Product) : Prop :=
  l.Pairwise (fun a b => b.createdAt < a.createdAt)

/-- Sample queue entry: an imageless, companyless product. -/
def opMug : OfflineProduct :=
  ⟨"local_1_mug", "Mug", none, 10, 15, 0, none, none, 1000⟩

/-- Sample queue entry with the same creation timestamp as `opMug`. -/
def opCup : OfflineProduct :=
  ⟨"local_2_cup", "Cup", none, 3, 5, 0, none, none, 1000⟩

/-- Sample queue entry that references a company. -/
def opAcme : OfflineProduct :=
  ⟨"local_3_chair", "Chair", some "Acme", 20, 30, 0, none, none, 2000⟩

/-- Sample confirmed record whose fields and creation timestamp equal those
of `opMug` but whose server id differs from `opMug.tempId`. -/
def docMug : Product :=
  ⟨"srv_9", "Mug", none, 10, 15, 0, none, 1000, false⟩

/-- Sample confirmed record unrelated to any queue entry. -/
def docServer : Product :=
  ⟨"srv_1", "Lamp", none, 7, 9, 0, none, 500, false⟩

/-- Sample queue entry whose temporary id coincides with a server id (the
edge case of §4.2: a record deleted before its queue entry was cleaned). -/
def opEdge : OfflineProduct :=
  ⟨"srv_7", "Desk", none, 40, 60, 0, none, none, 3000⟩

/-- The confirmed record carrying the same id as `opEdge.tempId`. -/
def docEdge : Product :=
  ⟨"srv_7", "Desk", none, 40, 60, 0, none, 3000, false⟩

/-- A sync-call state with a non-empty queue, online, no pass in flight. -/
def syncEnvReady : SyncCallEnv :=
  ⟨[opMug], true, false, false⟩

/-- A remote companies collection holding one company named "Acme". -/
def storeAcme : List Company :=
  [⟨"comp_1", "Acme", "acme", 5⟩]

/-- A form input with an empty name and a negative cost price. -/
def invalidForm : RawProductForm :=
  ⟨"", none, -1, 0, none⟩

/-- A non-trivial hook state used to witness that invalid input leaves the
state unchanged. -/
def stateOne : InventoryState :=
  ⟨[opMug], [docServer], [opMug]⟩

theorem mem_insertByCreatedDesc {x p : Product} :
    ∀ {l : List Product}, x ∈ insertByCreatedDesc p l ↔ x = p ∨ x ∈ l := by
  intro l
  induction l with
  | nil => simp [insertByCreatedDesc]
  | cons q qs ih =>
      simp only [insertByCreatedDesc]
      split
      · simp [List.mem_cons]
      · simp only [List.mem_cons, ih]
        tauto

theorem pairwise_insertByCreatedDesc {p : Product} :
    ∀ {l : List Product},
      l.Pairwise (fun a b => b.createdAt ≤ a.createdAt) →
      (insertByCreatedDesc p l).Pairwise (fun a b => b.createdAt ≤ a.createdAt) := by
  intro l h
  induction l with
  | nil => simp [insertByCreatedDesc]
  | cons q qs ih =>
      rw [List.pairwise_cons] at h
      obtain ⟨hq, hqs⟩ := h
      simp only [insertByCreatedDesc]
      split
      · rename_i hle
        refine List.pairwise_cons.mpr ⟨?_, List.pairwise_cons.mpr ⟨hq, hqs⟩⟩
        intro a ha
        rcases List.mem_cons.mp ha with h1 | h2
        · exact h1 ▸ hle
        · exact le_trans (hq a h2) hle
      · rename_i hgt
        refine List.pairwise_cons.mpr ⟨?_, ih hqs⟩
        intro a ha
        rcases mem_insertByCreatedDesc.mp ha with h1 | h2
        · exact h1 ▸ le_of_lt (lt_of_not_ge hgt)
        · exact hq a h2

theorem pairwise_sortDesc (l : List Product) : sortedByCreatedDesc (sortDesc l) := by
  induction l with
  | nil => simp [sortDesc, sortedByCreatedDesc]
  | cons p ps ih => exact pairwise_insertByCreatedDesc ih

theorem mem_sortDesc {x : Product} :
    ∀ {l : List Product}, x ∈ sortDesc l ↔ x ∈ l := by
  intro l
  induction l with
  | nil => simp [sortDesc]
  | cons p ps ih =>
      simp only [sortDesc, mem_insertByCreatedDesc, List.mem_cons, ih]

/-- C1: for every offline queue, products cache and search term — hence
after every sequence of enqueue operations and change-stream events — the
merged list never contains a pending entry (the display form of a queue
entry) together with a confirmed entry carrying the id that pending entry
was matched on.  Matching in the code is id equality: the base variant's
`combinedList` filters out every confirmed product whose id equals a queued
`tempId` (`src/src/hooks/use-inventory.ts` lines 511–512). -/
theorem mergedView_no_pending_confirmed_pair
    (q : List OfflineProduct) (ps : List Product) (term : String)
    (a b : Product) (op : OfflineProduct)
    (ha : a ∈ combinedList q ps term) (hb : b ∈ combinedList q ps term)
    (hop : op ∈ q) (hae : a = offlineToDisplay op)
    (hbconf : b.isOffline = false) : a.id ≠ b.id := by
  have hb1 : b ∈ sortDesc
      (q.map offlineToDisplay ++
        ps.filter (fun p => !(q.any (fun op' => op'.tempId == p.id)))) :=
    (List.mem_filter.mp hb).1
  rcases List.mem_append.mp (mem_sortDesc.mp hb1) with hmap | hfil
  · obtain ⟨op', _, rfl⟩ := List.mem_map.mp hmap
    simp [offlineToDisplay] at hbconf
  · have h2 := (List.mem_filter.mp hfil).2
    have hall : ∀ op' ∈ q, op'.tempId ≠ b.id := by
      simpa using h2
    intro heq
    apply hall op hop
    have hid : a.id = op.tempId := by rw [hae]; rfl
    rw [← hid, heq]

/-- Witness for C1 at a concrete state: one queued "Mug" and one confirmed
"Lamp". -/
theorem mergedView_no_pending_confirmed_pair_witness :
    (offlineToDisplay opMug).id ≠ docServer.id :=
  mergedView_no_pending_confirmed_pair [opMug] [docServer] ""
    (offlineToDisplay opMug) docServer opMug (by decide) (by decide)
    (by decide) rfl (by decide)

/-- C2 counterexample: a queued record whose name, cost price, selling
price, company and creation timestamp all equal those of an incoming
`added` record (timestamp difference zero, inside any tolerance window) is
not retired: it survives the guarded variant's snapshot queue filter, and
the base variant's snapshot handler leaves the queue untouched. -/
theorem snapshot_field_match_not_retired :
    opMug.name = docMug.name ∧ opMug.costPrice = docMug.costPrice ∧
    opMug.sellingPrice = docMug.sellingPrice ∧ opMug.company = docMug.company ∧
    opMug.createdAt = docMug.createdAt ∧
    opMug ∈ (guardedApplyChange ⟨[], [opMug]⟩ ⟨ChangeType.added, docMug⟩).offlineQueue ∧
    opMug ∈ (mainSnapshotStep ⟨[], [opMug]⟩ [⟨ChangeType.added, docMug⟩]).offlineQueue := by
  decide

/-- C2 amended: a change-stream event retires a queue entry if and only if
the entry's temporary id equals the event's document id; field equality and
timestamp proximity play no role (`src/unnamed/part_007` lines 528 and
534). -/
theorem snapshot_retirement_iff_tempId_eq
    (s : ProductsQueue) (c : DocChange) (op : OfflineProduct) :
    op ∈ (guardedApplyChange s c).offlineQueue ↔
      op ∈ s.offlineQueue ∧ op.tempId ≠ c.doc.id := by
  cases c with
  | mk t d => cases t <;> simp [guardedApplyChange, List.mem_filter, bne_iff_ne]

/-- C3 counterexample: in the base variant there is no single-flight guard —
with a non-empty queue and the device online, two immediate calls of
`syncOfflineQueue` both pass the guard and both perform the network work of
the queue. -/
theorem mainSync_two_calls_double_work :
    mainSyncProceeds syncEnvReady = true ∧
    mainTwoCallsNetworkPasses syncEnvReady = 2 := by
  decide

/-- C3 amended: only the guarded variant (`src/unnamed/part_007`) has a
single-flight guard.  There, the `isSyncing` ref is set synchronously before
the first await, so of two calls in immediate succession at most one
performs network work; the second returns at the guard without touching any
state.  The base variant's sync only skips when the queue is empty or the
device is offline. -/
theorem guardedSync_single_flight (s : SyncCallEnv) :
    guardedTwoCallsNetworkPasses s ≤ 1 := by
  unfold guardedTwoCallsNetworkPasses
  cases h : guardedSyncProceeds s with
  | false => simp [h]
  | true => simp [h, guardedSyncProceeds]

/-- C4: when the batch commit of a sync pass fails as a whole, the queue
after the pass is a permutation of the queue before it — every entry is
restored or remains — so the pending count is unchanged.  In the guarded
variant the optimistically cleared queue is rebuilt from the per-item
requeues and the commit-failure requeue; in the base variant the queue was
never cleared.  Temporary ids are assumed pairwise distinct, which the
generator guarantees within a device. -/
theorem commit_failure_preserves_queue (prepOk : OfflineProduct → Bool)
    (q : List OfflineProduct)
    (hnd : (q.map (fun p => p.tempId)).Nodup) :
    (guardedSyncPassQueue prepOk false q).Perm q ∧
    (guardedSyncPassQueue prepOk false q).length = q.length ∧
    mainSyncPassQueue prepOk false q = q := by
  have hmain : mainSyncPassQueue prepOk false q = q := by
    simp only [mainSyncPassQueue, Bool.false_eq_true, if_false]
    split <;> rfl
  have hperm : (guardedSyncPassQueue prepOk false q).Perm q := by
    by_cases hempty :
        ((q.filter (fun p => prepOk p)).map (fun p => p.tempId)).isEmpty = true
    · have hnil : q.filter (fun p => prepOk p) = [] := by
        simpa [List.isEmpty_iff, List.map_eq_nil_iff] using hempty
      have hfe : q.filter (fun p => !prepOk p) = q := by
        apply List.filter_eq_self.mpr
        intro p hp
        have hnp : ¬ prepOk p = true := by
          intro hpk
          have hmem : p ∈ q.filter (fun p => prepOk p) := List.mem_filter.mpr ⟨hp, hpk⟩
          simp [hnil] at hmem
        simpa using hnp
      simp only [guardedSyncPassQueue, hempty, if_true]
      rw [hfe]
    · have hstep : guardedSyncPassQueue prepOk false q =
          q.filter (fun p => !prepOk p) ++
            q.filter (fun p =>
              ((q.filter (fun p' => prepOk p')).map (fun p' => p'.tempId)).contains p.tempId) := by
        simp only [guardedSyncPassQueue]
        rw [if_neg hempty, if_neg (by simp)]
      have hcongr : q.filter
          (fun p =>
            ((q.filter (fun p' => prepOk p')).map (fun p' => p'.tempId)).contains p.tempId)
          = q.filter (fun p => prepOk p) := by
        apply List.filter_congr
        intro p hp
        by_cases hpk : prepOk p = true
        · have hmem : p.tempId ∈ (q.filter (fun p' => prepOk p')).map (fun p' => p'.tempId) :=
            List.mem_map.mpr ⟨p, List.mem_filter.mpr ⟨hp, hpk⟩, rfl⟩
          simp only [hpk]
          exact List.elem_iff.mpr hmem
        · have hnmem : ¬ p.tempId ∈ (q.filter (fun p' => prepOk p')).map (fun p' => p'.tempId) := by
            intro hmem
            obtain ⟨p', hp', hpe⟩ := List.mem_map.mp hmem
            have hp'q : p' ∈ q := (List.mem_filter.mp hp').1
            have hp'k : prepOk p' = true := (List.mem_filter.mp hp').2
            have hpp : p = p' := List.inj_on_of_nodup_map hnd hp hp'q hpe.symm
            exact hpk (hpp ▸ hp'k)
          simp only [hpk]
          simpa using fun hmem => hnmem (List.elem_iff.mp hmem)
      rw [hstep, hcongr]
      exact List.perm_append_comm.trans (List.filter_append_perm (fun p => prepOk p) q)
  exact ⟨hperm, hperm.length_eq, hmain⟩

/-- Witness for C4 at a concrete two-entry queue where one entry prepares
successfully and the other fails. -/
theorem commit_failure_preserves_queue_witness :
    (guardedSyncPassQueue (fun p => p.tempId == "local_1_mug") false [opMug, opAcme]).length
      = [opMug, opAcme].length ∧
    mainSyncPassQueue (fun p => p.tempId == "local_1_mug") false [opMug, opAcme]
      = [opMug, opAcme] := by
  have h := commit_failure_preserves_queue (fun p => p.tempId == "local_1_mug")
    [opMug, opAcme] (by decide)
  exact ⟨h.2.1, h.2.2⟩

/-- C5: submitting a form whose name is empty or whose cost price is
negative fails schema validation, and the hook state — in-memory queue,
persisted queue, and products cache (the merge input) — is unchanged. -/
theorem invalid_input_rejected (f : RawProductForm) (tempId : String)
    (now : Int) (s : InventoryState)
    (h : f.name = "" ∨ f.costPrice < 0) :
    productSchemaParse f = none ∧ submitAddProduct f tempId now s = s := by
  have hp : productSchemaParse f = none := by
    rcases h with h | h
    · simp [productSchemaParse, h]
    · unfold productSchemaParse
      by_cases h1 : f.name.length < 1
      · rw [if_pos h1]
      · rw [if_neg h1, if_pos h]
  exact ⟨hp, by simp [submitAddProduct, hp]⟩

/-- Witness for C5 at the spec's own input `{name: "", costPrice: -1}` and a
non-empty hook state. -/
theorem invalid_input_rejected_witness :
    productSchemaParse invalidForm = none ∧
    submitAddProduct invalidForm "local_w" 7 stateOne = stateOne :=
  invalid_input_rejected invalidForm "local_w" 7 stateOne (Or.inl rfl)

/-- C6 counterexample: two queue entries created in the same millisecond
give a merged list that is not strictly descending — the sort comparator
admits ties. -/
theorem mergedView_not_strictly_sorted :
    ¬ strictlySortedByCreatedDesc (combinedList [opMug, opCup] [] "") := by
  show ¬ List.Pairwise _ _
  decide

/-- C6 amended: after every operation the merged list is sorted by creation
timestamp in non-increasing (descending, ties permitted) order, pending and
confirmed entries interleaved by that single field; the same holds for any
list passed through the optimistic-insert sort. -/
theorem mergedView_sorted_desc (q : List OfflineProduct) (ps : List Product)
    (term : String) (l : List Product) :
    sortedByCreatedDesc (combinedList q ps term) ∧
    sortedByCreatedDesc (sortDesc l) := by
  constructor
  · exact List.Pairwise.filter _ (pairwise_sortDesc _)
  · exact pairwise_sortDesc l

/-- C7 counterexample: the base variant's snapshot handler deletes the
confirmed record on a `removed` event but never touches the offline queue —
a queue entry whose temporary id equals the removed server id stays
queued. -/
theorem removed_event_no_queue_purge_main :
    opEdge.tempId = docEdge.id ∧
    opEdge ∈ (mainSnapshotStep ⟨[docEdge], [opEdge]⟩
      [⟨ChangeType.removed, docEdge⟩]).offlineQueue ∧
    (∀ p ∈ (mainSnapshotStep ⟨[docEdge], [opEdge]⟩
      [⟨ChangeType.removed, docEdge⟩]).products, p.id ≠ docEdge.id) := by
  decide

/-- C7 amended: on a `removed` event for server id X, the confirmed record
with id X is deleted in both variants, but only the guarded variant also
purges queue entries whose temporary id equals X; the base variant leaves
the queue untouched. -/
theorem removed_event_purges_guarded (s : ProductsQueue) (d : Product) :
    (∀ p ∈ (guardedApplyChange s ⟨ChangeType.removed, d⟩).products, p.id ≠ d.id) ∧
    (∀ op ∈ (guardedApplyChange s ⟨ChangeType.removed, d⟩).offlineQueue,
      op.tempId ≠ d.id) ∧
    (∀ p ∈ mainApplyChange s.products ⟨ChangeType.removed, d⟩, p.id ≠ d.id) := by
  refine ⟨?_, ?_, ?_⟩ <;> intro x hx <;>
    simp only [guardedApplyChange, mainApplyChange, List.mem_filter,
      bne_iff_ne, ne_eq] at hx <;>
    exact hx.2

/-- Witness for C7 (amended) at a concrete state: surviving entries of a
guarded `removed` step have ids different from the removed id. -/
theorem removed_event_purges_guarded_witness :
    docServer.id ≠ docMug.id ∧ opMug.tempId ≠ docMug.id := by
  have h := removed_event_purges_guarded ⟨[docServer], [opMug]⟩ docMug
  exact ⟨h.1 docServer (by decide), h.2.1 opMug (by decide)⟩

/-- C8 counterexample: in the base variant a failed company lookup is fatal
for the entry in that pass — `addCompany` has no inner catch, so the
per-item catch fires, the entry is left out of the batch and stays queued
even when the commit of the rest succeeds. -/
theorem company_failure_fatal_main :
    mainPrepareItem false opAcme = PrepOutcome.failed ∧
    opAcme ∈ mainSyncPassQueue
      (fun p => mainPrepareItem false p != PrepOutcome.failed) true [opAcme] := by
  decide

/-- C8 amended: only in the guarded variant is a company-resolution failure
non-fatal: the entry still reaches the batch, with no company association
and a surfaced warning.  In the base variant the failure aborts the entry
for that pass (it is not batched and is retried later); on success both
variants batch the entry with its company. -/
theorem company_failure_nonfatal_guarded (p : OfflineProduct) (c : String)
    (h : p.company = some c) :
    guardedPrepareItem false p = PrepOutcome.batched none ∧
    guardedPrepareItem true p = PrepOutcome.batched (some c) ∧
    mainPrepareItem false p = PrepOutcome.failed ∧
    mainPrepareItem true p = PrepOutcome.batched (some c) := by
  simp [guardedPrepareItem, mainPrepareItem, h]

/-- Witness for C8 (amended) at a concrete entry referencing "Acme". -/
theorem company_failure_nonfatal_guarded_witness :
    guardedPrepareItem false opAcme = PrepOutcome.batched none ∧
    guardedPrepareItem true opAcme = PrepOutcome.batched (some "Acme") ∧
    mainPrepareItem false opAcme = PrepOutcome.failed ∧
    mainPrepareItem true opAcme = PrepOutcome.batched (some "Acme") :=
  company_failure_nonfatal_guarded opAcme "Acme" rfl

/-- C9 counterexample: in the base variant, when the input names a company,
the awaited `addCompany` network call precedes the queue and view inserts;
and in the guarded variant an online enqueue whose direct add succeeds never
inserts the entry into the in-memory queue at all. -/
theorem enqueue_network_before_insert :
    netBefore (mainEnqueueTrace true false true true) Ev.queueInsert = true ∧
    Ev.queueInsert ∉ guardedEnqueueTrace false true true := by
  decide

/-- C9 amended: on a valid enqueue the temporary id and client timestamp are
assigned and, in the base variant, the entry is appended to the in-memory
queue (persisted by the storage effect) and inserted at the head of the
merged view before the record's own upload/create network calls — though
when a company is present the company-resolution call precedes the inserts;
with no company, no network I/O precedes them.  In the guarded variant the
optimistic view insert precedes all network I/O, while the queue insert
happens only when offline or when the direct add fails.  `addProduct` is a
fire-and-forget `mutate`, so the caller never awaits network completion. -/
theorem enqueue_insert_precedes_record_network :
    (∀ hc hi onl ok : Bool,
      recordNetBefore (mainEnqueueTrace hc hi onl ok) Ev.queueInsert = false ∧
      recordNetBefore (mainEnqueueTrace hc hi onl ok) Ev.viewInsertHead = false) ∧
    (∀ hi onl ok : Bool,
      netBefore (mainEnqueueTrace false hi onl ok) Ev.queueInsert = false) ∧
    (∀ hi onl ok : Bool,
      netBefore (guardedEnqueueTrace hi onl ok) Ev.viewInsertHead = false) := by
  decide

/-- C10: `addCompany` with an empty or whitespace-only name returns null
with no remote read or write; otherwise it trims the name, matches existing
companies on the lowercased trimmed key, returns the first existing match
without writing, and creates a new company document exactly when no company
matches. -/
theorem addCompanyFn_correct (store : List Company) (newId : String)
    (now : Int) (name : String) :
    (jsTrim name = "" → addCompanyFn store newId now name = ⟨none, store, 0, 0⟩) ∧
    (jsTrim name ≠ "" → (∃ c ∈ store, c.nameLower = jsToLower (jsTrim name)) →
      ∃ c ∈ store, c.nameLower = jsToLower (jsTrim name) ∧
        addCompanyFn store newId now name = ⟨some c, store, 1, 0⟩) ∧
    (jsTrim name ≠ "" → (∀ c ∈ store, c.nameLower ≠ jsToLower (jsTrim name)) →
      addCompanyFn store newId now name =
        ⟨some ⟨newId, jsTrim name, jsToLower (jsTrim name), now⟩,
         store ++ [⟨newId, jsTrim name, jsToLower (jsTrim name), now⟩], 1, 1⟩) := by
  refine ⟨?_, ?_, ?_⟩
  · intro h
    simp [addCompanyFn, h]
  · intro hne hex
    have hsome : (store.find? (fun c' => c'.nameLower == jsToLower (jsTrim name))).isSome = true := by
      rw [List.find?_isSome]
      obtain ⟨c, hc, hk⟩ := hex
      exact ⟨c, hc, by simp [hk]⟩
    obtain ⟨c, hc⟩ := Option.isSome_iff_exists.mp hsome
    refine ⟨c, List.mem_of_find?_eq_some hc, by simpa using List.find?_some hc, ?_⟩
    simp only [addCompanyFn]
    rw [if_neg hne, hc]
  · intro hne hall
    have hnone : store.find? (fun c' => c'.nameLower == jsToLower (jsTrim name)) = none := by
      rw [List.find?_eq_none]
      intro c hc
      simpa using hall c hc
    simp only [addCompanyFn]
    rw [if_neg hne, hnone]

/-- Witness for C10: a whitespace-only name, a case-insensitive hit on
"Acme" via " ACME ", and a genuine creation for "NewCo". -/
theorem addCompanyFn_correct_witness :
    addCompanyFn storeAcme "comp_2" 9 "   " = ⟨none, storeAcme, 0, 0⟩ ∧
    (∃ c ∈ storeAcme, c.nameLower = jsToLower (jsTrim " ACME ") ∧
      addCompanyFn storeAcme "comp_2" 9 " ACME " = ⟨some c, storeAcme, 1, 0⟩) ∧
    addCompanyFn storeAcme "comp_2" 9 "NewCo" =
      ⟨some ⟨"comp_2", "NewCo", "newco", 9⟩,
       storeAcme ++ [⟨"comp_2", "NewCo", "newco", 9⟩], 1, 1⟩ := by
  refine ⟨(addCompanyFn_correct storeAcme "comp_2" 9 "   ").1 (by decide),
    (addCompanyFn_correct storeAcme "comp_2" 9 " ACME ").2.1 (by decide)
      ⟨⟨"comp_1", "Acme", "acme", 5⟩, by decide, by decide⟩, ?_⟩
  exact (addCompanyFn_correct storeAcme "comp_2" 9 "NewCo").2.2 (by decide) (by decide)

end PocketInventory
